import Mathlib

/-!
Verification development for the cnt-tools batch import run pipeline.

The client-side doctype scripts (checkin_run.js, statement_run.js,
sales_return.js, the Fuel Consumption script) are shallowly embedded below:
pure computations become Lean functions, click handlers become functions from
the document state to the list of server calls they would issue.  Run statuses
are stored by the framework as strings; the enum of legal values is
{Draft, Parsed, Imported, Failed}.  JavaScript falsiness on string fields
(null / undefined / empty string) is modelled by `Option String` with `none`
standing for any falsy value; JavaScript numbers in money positions are
modelled by `Rat`.
-/

namespace CntTools

/-- Lowercasing as JavaScript toLowerCase performs it on the ASCII status
strings: per-character lowercasing.  (Core String.toLower is not used because
its recursion does not reduce inside the kernel.) -/
def jsToLowerCase (s : String) : String :=
  String.mk (s.data.map Char.toLower)

/-- The Run status enum (spec section 3); the doctype stores these as the
four strings produced by `Status.asString`. -/
inductive Status
  | draft
  | parsed
  | imported
  | failed
deriving DecidableEq, Repr

/-- The string stored in the status field for each status value. -/
def Status.asString : Status → String
  | .draft => "Draft"
  | .parsed => "Parsed"
  | .imported => "Imported"
  | .failed => "Failed"

/-- The lock flags set by `enforce_locks` in checkin_run.js: parent field
read-only flags, child grid add/delete suppression, and the file column
read-only flag. -/
structure CheckinLockState where
  cutoff_time_read_only : Bool
  log_window_read_only : Bool
  cannot_add_rows : Bool
  cannot_delete_rows : Bool
  file_read_only : Bool
deriving DecidableEq, Repr

/-- Embedding of `enforce_locks` (checkin_run.js lines 225-300): the document
is frozen exactly when the lowercased status string is "imported"; every
managed control gets read-only/disabled equal to that flag. -/
def enforce_locks (status : String) : CheckinLockState :=
  let frozen := jsToLowerCase status == "imported"
  { cutoff_time_read_only := frozen
    log_window_read_only := frozen
    cannot_add_rows := frozen
    cannot_delete_rows := frozen
    file_read_only := frozen }

/-- The parent fields locked by `enforce_import_lock` in statement_run.js. -/
def sr_fields_to_lock : List String :=
  ["bank_account", "statement_start", "statement_end", "source_file",
   "lock_mapping_fields"]

/-- The state produced by `enforce_import_lock` (statement_run.js lines
59-77): per-field read-only assignments plus the Save button visibility. -/
structure SrLockState where
  field_read_only : List (String × Bool)
  save_visible : Bool
deriving DecidableEq, Repr

/-- Embedding of `enforce_import_lock` (statement_run.js lines 59-77):
`isImported` is the exact string comparison with "Imported"; each field in
`sr_fields_to_lock` gets read_only = isImported and the primary (Save) action
is hidden when imported. -/
def enforce_import_lock (status : String) : SrLockState :=
  let isImported := status == "Imported"
  { field_read_only := sr_fields_to_lock.map (fun fn => (fn, isImported))
    save_visible := !isImported }

/-- Embedding of the guard of `add_parse_button` (checkin_run.js lines 43-47):
the Parse Data button is hidden when the lowercased status is "imported" or
"parsed" and shown otherwise. -/
def add_parse_button_shown (status : String) : Bool :=
  !(jsToLowerCase status == "imported" || jsToLowerCase status == "parsed")

/-- Embedding of the guard of `add_generate_action` (checkin_run.js lines
77-81): the Create Employee Checkins action appears only when the lowercased
status is "parsed". -/
def add_generate_action_shown (status : String) : Bool :=
  jsToLowerCase status == "parsed"

/-- Embedding of the guard of the Create Bank Transactions button in
`add_formatter_buttons` (statement_run.js line 99): shown exactly when the
status string equals "Parsed". -/
def sr_create_transactions_shown (status : String) : Bool :=
  status == "Parsed"

/-- The server methods the embedded click handlers may invoke. -/
inductive ServerCall
  | crPreview (start page_len : Nat) (order_desc : Bool)
  | crImportedTimeRange
  | parseSource
  | generateCheckins
  | previewRows
  | reloadDoc
  | createBankTransactions
deriving DecidableEq, Repr

/-- The Checkin Run document state visible to the client handlers: the status
string and the file references of the source_files child table. -/
structure CheckinRunDoc where
  status : String
  source_files : List String
deriving DecidableEq, Repr

/-- Embedding of the Parse Data click handler (checkin_run.js lines 49-64):
with no source file rows it only shows a message and issues no server call;
otherwise it calls parse_source. -/
def parse_click_calls (doc : CheckinRunDoc) : List ServerCall :=
  if doc.source_files.isEmpty then [] else [ServerCall.parseSource]

/-- Embedding of the fetch performed by `open_preview_dialog` (checkin_run.js
lines 116-145): a single cr_preview call with start 0, page_len 200,
order desc. -/
def open_preview_dialog_calls : List ServerCall :=
  [ServerCall.crPreview 0 200 true]

/-- Embedding of the Preview Data click handler (checkin_run.js lines 67-75):
with no source file rows it only shows a message, otherwise it opens the
preview dialog. -/
def preview_click_calls (doc : CheckinRunDoc) : List ServerCall :=
  if doc.source_files.isEmpty then [] else open_preview_dialog_calls

/-- The Statement Run document fields consulted by the client handlers.
`none` models a JavaScript-falsy field value. -/
structure StatementRunDoc where
  status : String
  source_file : Option String
  date_column : Option String
  description_column : Option String
  has_credit_debit_columns : Bool
  credit_column : Option String
  debit_column : Option String
  amount_column : Option String
deriving DecidableEq, Repr

/-- The `missing` list built by `has_min_mapping` (statement_run.js lines
127-147, identical in the Bank Statement Run copy), in the order the source
pushes the labels. -/
def has_min_mapping_missing (d : StatementRunDoc) : List String :=
  (if d.source_file = none then ["Source File"] else []) ++
  (if d.date_column = none then ["Date Column"] else []) ++
  (if d.description_column = none then ["Description Column"] else []) ++
  (if d.has_credit_debit_columns then
    (if d.credit_column = none then ["Credit Column"] else []) ++
    (if d.debit_column = none then ["Debit Column"] else [])
  else
    (if d.amount_column = none then ["Amount Column"] else []))

/-- The boolean returned by `has_min_mapping`: true exactly when the missing
list is empty (the source prints the list and returns false otherwise). -/
def has_min_mapping (d : StatementRunDoc) : Bool :=
  (has_min_mapping_missing d).isEmpty

/-- Embedding of the Preview click handler in `add_formatter_buttons`
(statement_run.js lines 82-96): when the minimum mapping is absent it returns
after the message with no server call; otherwise it calls preview_rows — the
source comments call this step "re-parse and open dialog" and freeze the UI
with "Parsing statement" — and then reloads the document. -/
def sr_preview_click_calls (d : StatementRunDoc) : List ServerCall :=
  if has_min_mapping d then [ServerCall.previewRows, ServerCall.reloadDoc]
  else []

/-- Which server calls perform a parse of the source files.  preview_rows is
a re-parse per the source comment at statement_run.js line 81 ("Single
Preview button: re-parse and open dialog").  Modelled from the spec:
cr_preview is the read-only Preview Service of section 4.6 (its server body
is not part of the repository snapshot) and performs no parse. -/
def call_triggers_parse : ServerCall → Bool
  | .parseSource => true
  | .previewRows => true
  | _ => false

/-- Which server calls mutate Run state.  parse_source, preview_rows,
generate_checkins and create_bank_transactions write to the Run (parse
persists the preview payload and counts, generation writes counts/status).
Modelled from the spec: cr_preview and cr_imported_time_range are read-only
(sections 4.6 and 6); reload_doc merely refetches. -/
def call_mutates_run : ServerCall → Bool
  | .parseSource => true
  | .previewRows => true
  | .generateCheckins => true
  | .createBankTransactions => true
  | _ => false

/-- Operator actions that drive the Run State Machine. -/
inductive RunAction
  | parse
  | generateOk
  | generateFail
deriving DecidableEq, Repr

/-- Modelled from the spec: the Run State Machine transition table (section
4.4).  The server-side status writes are not part of the repository snapshot;
the table is Draft to Parsed on parse, Parsed to Imported on a fully
successful generate, Parsed to Failed on an unrecoverable generation error,
and Failed back to Draft only through an explicit operator re-parse. -/
def step : Status → RunAction → Option Status
  | .draft, .parse => some .parsed
  | .failed, .parse => some .draft
  | .parsed, .generateOk => some .imported
  | .parsed, .generateFail => some .failed
  | _, _ => none

/-- Forward progress measure on statuses: Draft before Parsed before the two
terminal statuses. -/
def rank : Status → Nat
  | .draft => 0
  | .parsed => 1
  | .imported => 2
  | .failed => 2

/-- Modelled from the spec: the Draft to Parsed transition guard (section
4.4) requires at least one SourceFile and a validator pass; the server
implementation is not part of the repository snapshot. -/
def draft_to_parsed_guard (files : List String) (validator_ok : Bool) : Bool :=
  !files.isEmpty && validator_ok

/-- Rounding to the nearest integer, ties away from zero, as JavaScript
number formatting rounds.  Tie behaviour at the exact half-millesimal is
locale/engine detail; none of the theorems below depend on it. -/
def jsRound (q : ℚ) : ℤ :=
  if q < 0 then -round (-q) else round q

/-- The frappe `flt` coercion on a possibly null/non-numeric value: any
falsy or unparsable input becomes 0 (statement_run.js lines 8 and 15 use the
same parseFloat-with-0-default pattern). -/
def flt0 (v : Option ℚ) : ℚ :=
  v.getD 0

/-- `flt(x, 3)`: x rounded to 3 decimal places. -/
def round3 (q : ℚ) : ℚ :=
  (jsRound (q * 1000) : ℚ) / 1000

/-- The three fraction digits of a value scaled by 1000, zero padded, as the
fixed fraction part that `toLocaleString` with minimumFractionDigits 3 and
maximumFractionDigits 3 renders. -/
def fracPad3 (n : ℕ) : String :=
  String.mk [Nat.digitChar (n / 100 % 10), Nat.digitChar (n / 10 % 10),
    Nat.digitChar (n % 10)]

/-- Embedding of `fmtNumber3` (statement_run.js lines 14-17): a non-numeric
or null input is coerced to 0, the value is rendered with exactly three
fraction digits.  Locale thousand grouping of the integer part is a
locale-dependent presentation detail and is not modelled. -/
def fmtNumber3 (v : Option ℚ) : String :=
  let n : ℤ := jsRound (flt0 v * 1000)
  let sign := if n < 0 then "-" else ""
  sign ++ toString (n.natAbs / 1000) ++ "." ++ fracPad3 (n.natAbs % 1000)

/-- The currency label of `fmtCurrency`: BHD is spelled BD, a missing
currency stays empty. -/
def bhdLabel (cur : Option String) : String :=
  if cur == some "BHD" then "BD" else cur.getD ""

/-- Embedding of `fmtCurrency` (statement_run.js lines 6-12): the same
3-decimal rendering with a currency label, BHD spelled BD. -/
def fmtCurrency (v : Option ℚ) (cur : Option String) : String :=
  if bhdLabel cur == "" then fmtNumber3 v
  else bhdLabel cur ++ " " ++ fmtNumber3 v

/-- The accumulation loop of `calculate_total_fuel_consumption` (Fuel
Consumption script, section 3): total starts at 0 and adds flt of each child
row amount. -/
def calc_rows_total (rows : List (Option ℚ)) : ℚ :=
  rows.foldl (fun acc a => acc + flt0 a) 0

/-- The update guard of `calculate_total_fuel_consumption`: the stored total
is rewritten only when `flt(old, 3) !== flt(total, 3)`, a comparison at
3-decimal precision. -/
def calculate_total_update_guard (old_total : Option ℚ)
    (rows : List (Option ℚ)) : Bool :=
  decide (round3 (flt0 old_total) ≠ round3 (calc_rows_total rows))

/-- Embedding of `calculate_total_fuel_consumption`: the new stored value of
total_fuel_consumption after the handler runs. -/
def calculate_total_fuel_consumption (old_total : Option ℚ)
    (rows : List (Option ℚ)) : Option ℚ :=
  if calculate_total_update_guard old_total rows
  then some (calc_rows_total rows) else old_total

/-- One Fuel Consumption Details child row, with the two cost center fields
(`none` models a JavaScript-falsy value) and the consumed amount. -/
structure FuelRow where
  cost_center : Option String
  shared_use_cost_center : Option String
  amount_consumed : Option ℚ
deriving DecidableEq, Repr

/-- The grouping key of a detail row in `create_purchase_invoice` (Fuel
Consumption script lines 151-153): `row.cost_center ||
row.shared_use_cost_center`, and rows where both are falsy are skipped. -/
def groupKey (r : FuelRow) : Option String :=
  match r.cost_center with
  | some s => some s
  | none => r.shared_use_cost_center

/-- Accumulate an amount under a key in a JavaScript-object-like association
list: an existing key is updated in place, a new key is appended, matching
object key insertion order. -/
def addAmt : List (String × ℚ) → String → ℚ → List (String × ℚ)
  | [], k, v => [(k, v)]
  | (k0, v0) :: rest, k, v =>
    if k0 = k then (k0, v0 + v) :: rest else (k0, v0) :: addAmt rest k v

/-- The `grouped` accumulation loop of `create_purchase_invoice`: walk the
detail rows, skip rows without a grouping key, and add `flt(amount_consumed)`
under the key. -/
def buildGroups : List FuelRow → List (String × ℚ) → List (String × ℚ)
  | [], m => m
  | r :: rs, m =>
    match groupKey r with
    | none => buildGroups rs m
    | some k => buildGroups rs (addAmt m k (flt0 r.amount_consumed))

/-- One item of the Purchase Invoice built by `create_purchase_invoice`. -/
structure InvoiceItem where
  item_code : String
  qty : ℚ
  rate : ℚ
  amount : ℚ
  cost_center : String
  custom_fuel_consumption : String
deriving DecidableEq, Repr

/-- Embedding of the items construction in `create_purchase_invoice` (Fuel
Consumption script lines 147-170): one item per grouped key, item NS-00106,
qty 1, rate and amount both the accumulated group total. -/
def create_purchase_invoice_items (rows : List FuelRow) (docname : String) :
    List InvoiceItem :=
  (buildGroups rows []).map fun kv =>
    { item_code := "NS-00106"
      qty := 1
      rate := kv.2
      amount := kv.2
      cost_center := kv.1
      custom_fuel_consumption := docname }

/-- Specification-side sum of the consumed amounts of the rows whose
grouping key is k. -/
def groupKeySum : List FuelRow → String → ℚ
  | [], _ => 0
  | r :: rs, k =>
    (if groupKey r = some k then flt0 r.amount_consumed else 0) +
      groupKeySum rs k

/-- The keys of a grouping association list. -/
def keysOf (m : List (String × ℚ)) : List String :=
  m.map Prod.fst

/-- Lookup in a grouping association list. -/
def lookupG : List (String × ℚ) → String → Option ℚ
  | [], _ => none
  | (k0, v0) :: rest, k => if k0 = k then some v0 else lookupG rest k

/-- One Sales Return item row as read by the Create Credit Note handler. -/
structure SalesReturnItem where
  item_code : String
  qty : ℚ
  batch_no : Option String
deriving DecidableEq, Repr

/-- One item row of the credit note (return Sales Invoice). -/
structure CreditNoteItem where
  item_code : String
  qty : ℚ
  batch_no : Option String
  custom_sales_return : String
deriving DecidableEq, Repr

/-- Embedding of the items mapping in the Create Credit Note handler
(sales_return.js lines 47-55): a positive qty is negated, any other qty is
kept unchanged. -/
def credit_note_items (items : List SalesReturnItem) (docname : String) :
    List CreditNoteItem :=
  items.map fun row =>
    let q : ℚ := if row.qty > 0 then (-1 : ℚ) * row.qty else row.qty
    { item_code := row.item_code
      qty := q
      batch_no := row.batch_no
      custom_sales_return := docname }

/-- The Sales Return document fields the handler consults. -/
structure SalesReturnDoc where
  customer : Option String
  items : List SalesReturnItem
  name : String
deriving DecidableEq, Repr

/-- Embedding of the Create Credit Note click handler (sales_return.js lines
40-55): with no customer or an empty item list it only shows a message and
attempts no insert; otherwise it builds the return invoice items. -/
def create_credit_note_click (doc : SalesReturnDoc) :
    Option (List CreditNoteItem) :=
  if doc.customer = none ∨ doc.items = [] then none
  else some (credit_note_items doc.items doc.name)

/-- One canonical row as consumed by the Generation Engine: its natural key
and its readiness flag (spec section 3). -/
structure CRow where
  key : String
  ready : Bool
deriving DecidableEq, Repr

/-- The outcome of one generation pass: the counts returned to the caller,
the identifiers (natural keys) of the records the pass created in order, and
the record store contents afterwards (represented by the natural keys of the
existing downstream records). -/
structure GenOutcome where
  created : Nat
  already_exists : Nat
  failed : Nat
  skipped : Nat
  createdKeys : List String
  store : List String
deriving DecidableEq, Repr

/-- Modelled from the spec: the Generation Engine with the Dedup Resolver
(sections 4.3, 4.5); the server methods generate_checkins and
create_bank_transactions are not part of the repository snapshot.  Rows are
processed in order: a non-ready row is skipped; for a ready row the Dedup
Resolver is queried immediately before creation and a hit increments
already_exists without overwriting; otherwise creation is attempted against
the external record store — `canCreate` is the deterministic row-level
success behaviour of that collaborator — and failure of one row does not
abort the batch. -/
def generate (rows : List CRow) (store : List String)
    (canCreate : String → Bool) : GenOutcome :=
  match rows with
  | [] => ⟨0, 0, 0, 0, [], store⟩
  | r :: rs =>
    if r.ready = false then
      let o := generate rs store canCreate
      { o with skipped := o.skipped + 1 }
    else if r.key ∈ store then
      let o := generate rs store canCreate
      { o with already_exists := o.already_exists + 1 }
    else if canCreate r.key then
      let o := generate rs (store ++ [r.key]) canCreate
      { o with created := o.created + 1, createdKeys := r.key :: o.createdKeys }
    else
      let o := generate rs store canCreate
      { o with failed := o.failed + 1 }

/-- Specification-side count of the ready rows whose key is in the store. -/
def cntReadyIn : List CRow → List String → Nat
  | [], _ => 0
  | r :: rs, s =>
    (if r.ready = true ∧ r.key ∈ s then 1 else 0) + cntReadyIn rs s

/-- Specification-side count of the ready rows whose key is not in the
store. -/
def cntReadyOut : List CRow → List String → Nat
  | [], _ => 0
  | r :: rs, s =>
    (if r.ready = true ∧ r.key ∉ s then 1 else 0) + cntReadyOut rs s

/-- Specification-side count of the non-ready rows. -/
def cntNotReady : List CRow → Nat
  | [] => 0
  | r :: rs => (if r.ready = false then 1 else 0) + cntNotReady rs

/-- C2: for every Run status, the Checkin Run lock predicate of
`enforce_locks` holds exactly when the status is Imported — all mapping
fields and the file column become read-only and source-file child rows can
neither be added nor removed exactly then — and the Statement Run
`enforce_import_lock` marks each locked field read-only exactly then, all
other statuses (Failed included) staying editable. -/
theorem c2_import_lock_exact (st : Status) :
    (enforce_locks st.asString).cutoff_time_read_only =
      decide (st = .imported) ∧
    (enforce_locks st.asString).log_window_read_only =
      decide (st = .imported) ∧
    (enforce_locks st.asString).cannot_add_rows = decide (st = .imported) ∧
    (enforce_locks st.asString).cannot_delete_rows = decide (st = .imported) ∧
    (enforce_locks st.asString).file_read_only = decide (st = .imported) ∧
    (enforce_import_lock st.asString).field_read_only =
      sr_fields_to_lock.map (fun fn => (fn, decide (st = .imported))) ∧
    (enforce_import_lock st.asString).save_visible =
      !decide (st = .imported) := by
  cases st <;> decide

/-- C3: the parse operation is offered exactly in Draft and Failed, the
generate operation (Create Employee Checkins / Create Bank Transactions)
exactly in Parsed, and every transition of the Run state machine either
advances the status or is the explicit re-parse from Failed back to Draft. -/
theorem c3_status_machine_monotone (st s t : Status) (a : RunAction) :
    add_parse_button_shown st.asString =
      (decide (st = .draft) || decide (st = .failed)) ∧
    add_generate_action_shown st.asString = decide (st = .parsed) ∧
    sr_create_transactions_shown st.asString = decide (st = .parsed) ∧
    (step s a = some t →
      rank s < rank t ∨ (s = .failed ∧ t = .draft ∧ a = .parse)) := by
  refine ⟨?_, ?_, ?_, ?_⟩
  · cases st <;> decide
  · cases st <;> decide
  · cases st <;> decide
  · cases s <;> cases a <;> cases t <;> decide

/-- C3 witness: at Draft the parse action is offered and the parse
transition advances Draft to Parsed. -/
theorem c3_status_machine_monotone_witness :
    rank .draft < rank .parsed ∨
      (Status.draft = Status.failed ∧ Status.parsed = Status.draft ∧
        RunAction.parse = RunAction.parse) :=
  (c3_status_machine_monotone .draft .draft .parsed .parse).2.2.2 (by decide)

/-- C5 counterexample: with only the date column and the description column
set, the missing list is ["Source File", "Amount Column"], not exactly
["Amount Column"] — the validator also demands the source file. -/
theorem c5_counterexample :
    has_min_mapping_missing
        ⟨"Draft", none, some "Date", some "Description", false, none, none,
          none⟩ ≠
      ["Amount Column"] := by
  decide

/-- C5 (amended): given an amount-mode mapping in which the source file, the
date column and the description column are set and the amount column is not,
the validator returns ok = false with missing exactly ["Amount Column"]. -/
theorem c5_amount_mode_missing_amount (stv sf dc dsc : String)
    (cc dd : Option String) :
    has_min_mapping_missing
        ⟨stv, some sf, some dc, some dsc, false, cc, dd, none⟩ =
      ["Amount Column"] ∧
    has_min_mapping ⟨stv, some sf, some dc, some dsc, false, cc, dd, none⟩ =
      false := by
  constructor <;> rfl

/-- C6: for every mapping document, each missing required field is reported
(date and description always; amount in amount mode; credit and debit in
credit/debit mode) in the one missing list, and when validation fails the
Preview click issues no server call at all, so no parse is attempted. -/
theorem c6_validator_fails_fast_reports_all (d : StatementRunDoc) :
    (d.date_column = none → "Date Column" ∈ has_min_mapping_missing d) ∧
    (d.description_column = none →
      "Description Column" ∈ has_min_mapping_missing d) ∧
    (d.has_credit_debit_columns = false → d.amount_column = none →
      "Amount Column" ∈ has_min_mapping_missing d) ∧
    (d.has_credit_debit_columns = true → d.credit_column = none →
      "Credit Column" ∈ has_min_mapping_missing d) ∧
    (d.has_credit_debit_columns = true → d.debit_column = none →
      "Debit Column" ∈ has_min_mapping_missing d) ∧
    (has_min_mapping d = false → sr_preview_click_calls d = []) := by
  refine ⟨?_, ?_, ?_, ?_, ?_, ?_⟩
  · intro h; simp [has_min_mapping_missing, h]
  · intro h; simp [has_min_mapping_missing, h]
  · intro hm h; simp [has_min_mapping_missing, hm, h]
  · intro hm h; simp [has_min_mapping_missing, hm, h]
  · intro hm h; simp [has_min_mapping_missing, hm, h]
  · intro h; simp [sr_preview_click_calls, h]

/-- C6 witness: an empty amount-mode mapping reports the date, description
and amount columns and triggers no server call; an empty credit/debit-mode
mapping reports the credit and debit columns. -/
theorem c6_validator_fails_fast_reports_all_witness :
    ("Date Column" ∈ has_min_mapping_missing
        ⟨"Draft", none, none, none, false, none, none, none⟩) ∧
    ("Description Column" ∈ has_min_mapping_missing
        ⟨"Draft", none, none, none, false, none, none, none⟩) ∧
    ("Amount Column" ∈ has_min_mapping_missing
        ⟨"Draft", none, none, none, false, none, none, none⟩) ∧
    (sr_preview_click_calls
        ⟨"Draft", none, none, none, false, none, none, none⟩ = []) ∧
    ("Credit Column" ∈ has_min_mapping_missing
        ⟨"Draft", none, none, none, true, none, none, none⟩) ∧
    ("Debit Column" ∈ has_min_mapping_missing
        ⟨"Draft", none, none, none, true, none, none, none⟩) :=
  ⟨(c6_validator_fails_fast_reports_all _).1 rfl,
    (c6_validator_fails_fast_reports_all _).2.1 rfl,
    (c6_validator_fails_fast_reports_all _).2.2.1 rfl rfl,
    (c6_validator_fails_fast_reports_all
      ⟨"Draft", none, none, none, false, none, none, none⟩).2.2.2.2.2
      (by decide),
    (c6_validator_fails_fast_reports_all _).2.2.2.1 rfl rfl,
    (c6_validator_fails_fast_reports_all _).2.2.2.2.1 rfl rfl⟩

/-- C7: a Parse Data click on a Run with no source files issues no server
call (the operator only sees a message, the Run is untouched), and the
spec-side Draft to Parsed guard passes only with at least one SourceFile and
a validator pass. -/
theorem c7_parse_needs_source_files (doc : CheckinRunDoc)
    (files : List String) (vok : Bool) :
    (doc.source_files = [] → parse_click_calls doc = []) ∧
    (draft_to_parsed_guard files vok = true → files ≠ [] ∧ vok = true) := by
  constructor
  · intro h; simp [parse_click_calls, h]
  · intro h
    unfold draft_to_parsed_guard at h
    rcases Bool.and_eq_true_iff.mp h with ⟨h1, h2⟩
    refine ⟨?_, h2⟩
    intro hfiles
    subst hfiles
    simp at h1

/-- C7 witness: with no source files nothing is called; a one-file list with
a validator pass satisfies the guard conclusions. -/
theorem c7_parse_needs_source_files_witness :
    parse_click_calls ⟨"Draft", []⟩ = [] ∧
      (["f.csv"] ≠ ([] : List String) ∧ true = true) :=
  ⟨(c7_parse_needs_source_files ⟨"Draft", []⟩ ["f.csv"] true).1 rfl,
    (c7_parse_needs_source_files ⟨"Draft", []⟩ ["f.csv"] true).2 (by decide)⟩

/-- C4 counterexample: on a Statement Run with a complete minimum mapping
the Preview click issues preview_rows, a re-parse of the statement, so
preview does trigger a re-parse and does mutate Run state. -/
theorem c4_counterexample :
    ((sr_preview_click_calls
        ⟨"Parsed", some "f.csv", some "Date", some "Description", false,
          none, none, some "Amount"⟩).any call_triggers_parse = true) ∧
    ((sr_preview_click_calls
        ⟨"Parsed", some "f.csv", some "Date", some "Description", false,
          none, none, some "Amount"⟩).any call_mutates_run = true) := by
  decide

/-- C4 (amended): the Checkin Run preview is read-only — every server call
it issues mutates no Run state and performs no parse — while the Statement
Run Preview click re-parses (and hence rewrites the preview payload) exactly
when the minimum mapping is present, showing the row set of that fresh
parse. -/
theorem c4_preview_effects (cdoc : CheckinRunDoc) (sdoc : StatementRunDoc) :
    (preview_click_calls cdoc).all (fun c => !call_mutates_run c) = true ∧
    (preview_click_calls cdoc).all (fun c => !call_triggers_parse c) = true ∧
    (sr_preview_click_calls sdoc).any call_triggers_parse =
      has_min_mapping sdoc := by
  refine ⟨?_, ?_, ?_⟩
  · unfold preview_click_calls open_preview_dialog_calls
    split <;> rfl
  · unfold preview_click_calls open_preview_dialog_calls
    split <;> rfl
  · unfold sr_preview_click_calls
    by_cases h : has_min_mapping sdoc <;> simp [h, call_triggers_parse]

/-- C10: the Create Credit Note click builds an insert exactly when a
customer is set and the item list is non-empty; each credit-note line
negates a positive qty and keeps any other qty, so no credit-note line
carries a positive quantity. -/
theorem c10_credit_note_items (doc : SalesReturnDoc)
    (items : List SalesReturnItem) (nm : String) :
    ((create_credit_note_click doc ≠ none) ↔
      (doc.customer ≠ none ∧ doc.items ≠ [])) ∧
    (∀ i : Nat, ((credit_note_items items nm)[i]?).map (·.qty) =
      (items[i]?).map
        (fun row => if row.qty > 0 then -row.qty else row.qty)) ∧
    (∀ it ∈ credit_note_items items nm, it.qty ≤ 0) := by
  refine ⟨?_, ?_, ?_⟩
  · rw [create_credit_note_click]
    by_cases h : doc.customer = none ∨ doc.items = []
    · rw [if_pos h]
      simp only [ne_eq, not_true_eq_false, false_iff]
      tauto
    · rw [if_neg h]
      push_neg at h
      simp [h.1, h.2]
  · intro i
    simp only [credit_note_items, List.getElem?_map]
    cases items[i]? with
    | none => rfl
    | some row =>
      simp only [Option.map_some']
      congr 1
      split <;> ring
  · intro it hit
    rcases List.mem_map.1 hit with ⟨row, _, rfl⟩
    by_cases h : row.qty > 0
    · simp only [h, if_pos]
      nlinarith
    · simp only [h, if_neg]
      exact le_of_not_lt h

/-- Every fmtNumber3 rendering splits into an integer part, a dot and a
fraction part of exactly three characters. -/
theorem fmt3_split (v : Option ℚ) :
    ∃ ip fp : String, fmtNumber3 v = ip ++ "." ++ fp ∧ fp.length = 3 := by
  refine ⟨(if (jsRound (flt0 v * 1000)) < 0 then "-" else "") ++
      toString ((jsRound (flt0 v * 1000)).natAbs / 1000),
    fracPad3 ((jsRound (flt0 v * 1000)).natAbs % 1000), ?_, ?_⟩
  · rfl
  · rfl

/-- fmtCurrency likewise always renders a three-character fraction part. -/
theorem fmtCurrency_split (v : Option ℚ) (cur : Option String) :
    ∃ ip fp : String, fmtCurrency v cur = ip ++ "." ++ fp ∧ fp.length = 3 := by
  obtain ⟨ip, fp, h, hl⟩ := fmt3_split v
  unfold fmtCurrency
  by_cases hb : (bhdLabel cur == "") = true
  · rw [if_pos hb]
    exact ⟨ip, fp, h, hl⟩
  · rw [if_neg hb]
    refine ⟨bhdLabel cur ++ " " ++ ip, fp, ?_, hl⟩
    rw [h]
    simp [String.append_assoc]

/-- C8: money values are fixed at three decimal places: fmtNumber3 renders
null/non-numeric input as "0.000" and any numeric input with exactly three
fraction digits, fmtCurrency does the same, two amounts equal at 3-decimal
precision render identically, and the total-fuel-consumption update guard
compares the stored and computed totals at exactly 3-decimal precision. -/
theorem c8_three_decimal_money (v : Option ℚ) (cur : Option String)
    (a b : ℚ) (old : Option ℚ) (rows : List (Option ℚ)) :
    fmtNumber3 none = "0.000" ∧
    (∃ ip fp : String, fmtNumber3 v = ip ++ "." ++ fp ∧ fp.length = 3) ∧
    (∃ ip fp : String, fmtCurrency v cur = ip ++ "." ++ fp ∧
      fp.length = 3) ∧
    (round3 a = round3 b → fmtNumber3 (some a) = fmtNumber3 (some b)) ∧
    (calculate_total_update_guard old rows = false ↔
      round3 (flt0 old) = round3 (calc_rows_total rows)) := by
  refine ⟨?_, fmt3_split v, fmtCurrency_split v cur, ?_, ?_⟩
  · have h0 : jsRound (flt0 none * 1000) = 0 := by simp [jsRound, flt0]
    simp only [fmtNumber3]
    simp only [h0]
    decide
  · intro h
    have h1000 : (jsRound (a * 1000) : ℚ) = (jsRound (b * 1000) : ℚ) := by
      unfold round3 at h
      field_simp at h
      exact_mod_cast h
    have hz : jsRound (a * 1000) = jsRound (b * 1000) := by exact_mod_cast h1000
    simp only [fmtNumber3, flt0, Option.getD_some]
    simp only [hz]
  · unfold calculate_total_update_guard
    simp only [decide_eq_false_iff_not, ne_eq, not_not]

/-- C8 witness: 0.00025 and 0 agree at 3-decimal precision and render to the
same string. -/
theorem c8_three_decimal_money_witness :
    round3 (1 / 4000 : ℚ) = round3 (0 : ℚ) ∧
    fmtNumber3 (some (1 / 4000 : ℚ)) = fmtNumber3 (some (0 : ℚ)) :=
  ⟨by norm_num [round3, jsRound, round_eq],
    (c8_three_decimal_money (some 0) none (1 / 4000) 0 none []).2.2.2.1
      (by norm_num [round3, jsRound, round_eq])⟩

/-- The store after a generation pass is the initial store extended by the
keys the pass created, in order. -/
theorem generate_store_eq (rows : List CRow) (store : List String)
    (cc : String → Bool) :
    (generate rows store cc).store =
      store ++ (generate rows store cc).createdKeys := by
  induction rows generalizing store with
  | nil => simp [generate]
  | cons r rs ih =>
    simp only [generate]
    by_cases h1 : r.ready = false
    · rw [if_pos h1]
      exact ih store
    · rw [if_neg h1]
      by_cases h2 : r.key ∈ store
      · rw [if_pos h2]
        exact ih store
      · rw [if_neg h2]
        by_cases h3 : cc r.key = true
        · rw [if_pos h3]
          have h := ih (store ++ [r.key])
          rw [h, List.append_assoc]
          rfl
        · rw [if_neg h3]
          exact ih store

/-- Every key created by a generation pass passed the external creation
check and was not already in the store. -/
theorem generate_createdKeys_spec (rows : List CRow) (store : List String)
    (cc : String → Bool) :
    ∀ k ∈ (generate rows store cc).createdKeys,
      cc k = true ∧ k ∉ store := by
  induction rows generalizing store with
  | nil => simp [generate]
  | cons r rs ih =>
    simp only [generate]
    by_cases h1 : r.ready = false
    · rw [if_pos h1]
      exact ih store
    · rw [if_neg h1]
      by_cases h2 : r.key ∈ store
      · rw [if_pos h2]
        exact ih store
      · rw [if_neg h2]
        by_cases h3 : cc r.key = true
        · rw [if_pos h3]
          intro k hk
          rcases List.mem_cons.1 hk with rfl | hk2
          · exact ⟨h3, h2⟩
          · have h := ih (store ++ [r.key]) k hk2
            exact ⟨h.1, fun hs => h.2 (List.mem_append_left _ hs)⟩
        · rw [if_neg h3]
          exact ih store

/-- The keys created by one generation pass are pairwise distinct: no
natural key yields two created records inside one pass. -/
theorem generate_createdKeys_nodup (rows : List CRow) (store : List String)
    (cc : String → Bool) :
    (generate rows store cc).createdKeys.Nodup := by
  induction rows generalizing store with
  | nil => simp [generate]
  | cons r rs ih =>
    simp only [generate]
    by_cases h1 : r.ready = false
    · rw [if_pos h1]
      exact ih store
    · rw [if_neg h1]
      by_cases h2 : r.key ∈ store
      · rw [if_pos h2]
        exact ih store
      · rw [if_neg h2]
        by_cases h3 : cc r.key = true
        · rw [if_pos h3]
          refine List.nodup_cons.2 ⟨?_, ih (store ++ [r.key])⟩
          intro hmem
          have h := generate_createdKeys_spec rs (store ++ [r.key]) cc
            r.key hmem
          exact h.2 (List.mem_append_right _ (List.mem_singleton_self _))
        · rw [if_neg h3]
          exact ih store

/-- After a generation pass, the key of every ready row the external store
accepts is present in the store (it was either already there, or got
created). -/
theorem generate_mem_store (rows : List CRow) (store : List String)
    (cc : String → Bool) :
    ∀ r ∈ rows, r.ready = true → cc r.key = true →
      r.key ∈ (generate rows store cc).store := by
  induction rows generalizing store with
  | nil => intro r hr; cases hr
  | cons r rs ih =>
    intro x hx hready hcc
    simp only [generate]
    by_cases h1 : r.ready = false
    · rw [if_pos h1]
      rcases List.mem_cons.1 hx with rfl | hx2
      · rw [hready] at h1; cases h1
      · exact ih store x hx2 hready hcc
    · rw [if_neg h1]
      by_cases h2 : r.key ∈ store
      · rw [if_pos h2]
        rcases List.mem_cons.1 hx with rfl | hx2
        · rw [generate_store_eq]
          exact List.mem_append_left _ h2
        · exact ih store x hx2 hready hcc
      · rw [if_neg h2]
        by_cases h3 : cc r.key = true
        · rw [if_pos h3]
          rcases List.mem_cons.1 hx with rfl | hx2
          · rw [generate_store_eq]
            exact List.mem_append_left _
              (List.mem_append_right _ (List.mem_singleton_self _))
          · exact ih (store ++ [r.key]) x hx2 hready hcc
        · rw [if_neg h3]
          rcases List.mem_cons.1 hx with rfl | hx2
          · exact absurd hcc h3
          · exact ih store x hx2 hready hcc

/-- A generation pass over a store already containing the key of every
creatable ready row creates nothing: it only counts duplicates, failures and
skips, and leaves the store untouched. -/
theorem generate_second_run (rows : List CRow) (store : List String)
    (cc : String → Bool)
    (H : ∀ r ∈ rows, r.ready = true → cc r.key = true → r.key ∈ store) :
    generate rows store cc =
      ⟨0, cntReadyIn rows store, cntReadyOut rows store, cntNotReady rows,
        [], store⟩ := by
  induction rows with
  | nil => simp [generate, cntReadyIn, cntReadyOut, cntNotReady]
  | cons r rs ih =>
    have Hr := H r (List.mem_cons_self r rs)
    have Hrs : ∀ x ∈ rs, x.ready = true → cc x.key = true → x.key ∈ store :=
      fun x hx => H x (List.mem_cons_of_mem r hx)
    simp only [generate, cntReadyIn, cntReadyOut, cntNotReady]
    by_cases h1 : r.ready = false
    · rw [if_pos h1, ih Hrs]
      have hr : ¬(r.ready = true ∧ r.key ∈ store) := by simp [h1]
      have hro : ¬(r.ready = true ∧ r.key ∉ store) := by simp [h1]
      simp [h1, hr, hro, Nat.add_comm]
    · rw [if_neg h1]
      have hready : r.ready = true := by
        cases hb : r.ready
        · exact absurd hb h1
        · rfl
      by_cases h2 : r.key ∈ store
      · rw [if_pos h2, ih Hrs]
        have hr : r.ready = true ∧ r.key ∈ store := ⟨hready, h2⟩
        have hro : ¬(r.ready = true ∧ r.key ∉ store) := by simp [h2]
        simp [h1, hr, hro, Nat.add_comm]
      · have h3 : ¬(cc r.key = true) := fun hcc => h2 (Hr hready hcc)
        rw [if_neg h2, if_neg h3, ih Hrs]
        have hr : ¬(r.ready = true ∧ r.key ∈ store) := by simp [h2]
        have hro : r.ready = true ∧ r.key ∉ store := ⟨hready, h2⟩
        simp [h1, hr, hro, Nat.add_comm]

/-- After a generation pass, the number of ready rows whose key ended up in
the store equals already_exists plus created of that pass. -/
theorem generate_cnt_after (rows : List CRow) (store : List String)
    (cc : String → Bool) :
    cntReadyIn rows (generate rows store cc).store =
      (generate rows store cc).already_exists +
        (generate rows store cc).created := by
  induction rows generalizing store with
  | nil => simp [generate, cntReadyIn]
  | cons r rs ih =>
    simp only [generate]
    by_cases h1 : r.ready = false
    · rw [if_pos h1]
      have hr : ¬(r.ready = true ∧
          r.key ∈ (generate rs store cc).store) := by simp [h1]
      simp only [cntReadyIn, if_neg hr]
      simpa using ih store
    · rw [if_neg h1]
      have hready : r.ready = true := by
        cases hb : r.ready
        · exact absurd hb h1
        · rfl
      by_cases h2 : r.key ∈ store
      · rw [if_pos h2]
        have hmem : r.key ∈ (generate rs store cc).store := by
          rw [generate_store_eq]
          exact List.mem_append_left _ h2
        have hr : r.ready = true ∧ r.key ∈ (generate rs store cc).store :=
          ⟨hready, hmem⟩
        simp only [cntReadyIn, if_pos hr]
        have h := ih store
        omega
      · rw [if_neg h2]
        by_cases h3 : cc r.key = true
        · rw [if_pos h3]
          have hmem : r.key ∈ (generate rs (store ++ [r.key]) cc).store := by
            rw [generate_store_eq]
            exact List.mem_append_left _
              (List.mem_append_right _ (List.mem_singleton_self _))
          have hr : r.ready = true ∧
              r.key ∈ (generate rs (store ++ [r.key]) cc).store :=
            ⟨hready, hmem⟩
          simp only [cntReadyIn, if_pos hr]
          have h := ih (store ++ [r.key])
          omega
        · rw [if_neg h3]
          have hnot : r.key ∉ (generate rs store cc).store := by
            rw [generate_store_eq]
            intro hmem
            rcases List.mem_append.1 hmem with hs | hck
            · exact h2 hs
            · exact h3 (generate_createdKeys_spec rs store cc r.key hck).1
          have hr : ¬(r.ready = true ∧
              r.key ∈ (generate rs store cc).store) := by simp [hnot]
          simp only [cntReadyIn, if_neg hr]
          simpa using ih store

/-- C1 counterexample: on a Run whose single ready row carries a natural key
the store already holds (created earlier, e.g. by an overlapping Run), the
first generate completes with created = 0 and already_exists = 1; the second
call returns already_exists = 1, which differs from the first call created
count 0 — so the second call already_exists does not in general equal the
first call created count. -/
theorem c1_counterexample :
    (generate [⟨"k", true⟩]
        (generate [⟨"k", true⟩] ["k"] (fun _ => true)).store
        (fun _ => true)).already_exists ≠
      (generate [⟨"k", true⟩] ["k"] (fun _ => true)).created := by
  decide

/-- C1 (amended): for every Run, a second generate call in succession
creates nothing — created = 0, no new record, store unchanged — and its
already_exists count equals the first call created count plus the first call
already_exists count; moreover the first call never creates two records for
one natural key nor for a key already in the store. -/
theorem c1_generate_idempotent (rows : List CRow) (store : List String)
    (cc : String → Bool) :
    (generate rows (generate rows store cc).store cc).created = 0 ∧
    (generate rows (generate rows store cc).store cc).already_exists =
      (generate rows store cc).already_exists +
        (generate rows store cc).created ∧
    (generate rows (generate rows store cc).store cc).createdKeys = [] ∧
    (generate rows (generate rows store cc).store cc).store =
      (generate rows store cc).store ∧
    (generate rows store cc).createdKeys.Nodup ∧
    (∀ k ∈ (generate rows store cc).createdKeys, k ∉ store) := by
  have G := generate_second_run rows (generate rows store cc).store cc
    (generate_mem_store rows store cc)
  rw [G]
  refine ⟨rfl, ?_, rfl, rfl, generate_createdKeys_nodup rows store cc, ?_⟩
  · exact generate_cnt_after rows store cc
  · intro k hk
    exact (generate_createdKeys_spec rows store cc k hk).2

/-- C1 witness: a fresh one-row Run: the first call creates key a, the
second call creates nothing and reports one duplicate. -/
theorem c1_generate_idempotent_witness :
    (generate [⟨"a", true⟩]
        (generate [⟨"a", true⟩] [] (fun _ => true)).store
        (fun _ => true)).created = 0 ∧
    ("a" ∉ ([] : List String)) :=
  ⟨(c1_generate_idempotent [⟨"a", true⟩] [] (fun _ => true)).1,
    (c1_generate_idempotent [⟨"a", true⟩] [] (fun _ => true)).2.2.2.2.2
      "a" (by decide)⟩

/-- The key list of an empty association list. -/
theorem keysOf_nil : keysOf [] = [] := rfl

/-- The key list of a cons. -/
theorem keysOf_cons (p : String × ℚ) (l : List (String × ℚ)) :
    keysOf (p :: l) = p.1 :: keysOf l := rfl

/-- Accumulating under a key already present leaves the key list
unchanged. -/
theorem keysOf_addAmt_mem (m : List (String × ℚ)) (k : String) (v : ℚ)
    (h : k ∈ keysOf m) : keysOf (addAmt m k v) = keysOf m := by
  induction m with
  | nil => simp [keysOf_nil] at h
  | cons p rest ih =>
    obtain ⟨k0, v0⟩ := p
    by_cases hk : k0 = k
    · subst hk
      simp [addAmt, keysOf_cons]
    · have h2 : k ∈ keysOf rest := by
        rw [keysOf_cons] at h
        rcases List.mem_cons.1 h with h1 | h1
        · exact absurd h1.symm hk
        · exact h1
      simp only [addAmt, if_neg hk, keysOf_cons, ih h2]

/-- Accumulating under a fresh key appends it to the key list. -/
theorem keysOf_addAmt_not_mem (m : List (String × ℚ)) (k : String) (v : ℚ)
    (h : k ∉ keysOf m) : keysOf (addAmt m k v) = keysOf m ++ [k] := by
  induction m with
  | nil => simp [addAmt, keysOf_nil, keysOf_cons]
  | cons p rest ih =>
    obtain ⟨k0, v0⟩ := p
    by_cases hk : k0 = k
    · subst hk
      refine absurd ?_ h
      rw [keysOf_cons]
      exact List.mem_cons_self _ _
    · have h2 : k ∉ keysOf rest := by
        intro hm
        refine h ?_
        rw [keysOf_cons]
        exact List.mem_cons_of_mem _ hm
      simp only [addAmt, if_neg hk, keysOf_cons, ih h2, List.cons_append]

/-- Membership in the key list after one accumulation. -/
theorem mem_keysOf_addAmt (m : List (String × ℚ)) (k0 : String) (v : ℚ)
    (k : String) :
    k ∈ keysOf (addAmt m k0 v) ↔ k ∈ keysOf m ∨ k = k0 := by
  by_cases h : k0 ∈ keysOf m
  · rw [keysOf_addAmt_mem m k0 v h]
    constructor
    · exact Or.inl
    · rintro (hm | rfl)
      · exact hm
      · exact h
  · rw [keysOf_addAmt_not_mem m k0 v h]
    simp [List.mem_append]

/-- Lookup of the accumulated key after one accumulation. -/
theorem lookupG_addAmt_self (m : List (String × ℚ)) (k : String) (v : ℚ) :
    lookupG (addAmt m k v) k = some ((lookupG m k).getD 0 + v) := by
  induction m with
  | nil => simp [addAmt, lookupG]
  | cons p rest ih =>
    obtain ⟨k0, v0⟩ := p
    by_cases hk : k0 = k
    · subst hk
      simp [addAmt, lookupG]
    · simp [addAmt, hk, lookupG, ih]

/-- Lookup of a different key is unchanged by one accumulation. -/
theorem lookupG_addAmt_other (m : List (String × ℚ)) (k k2 : String)
    (v : ℚ) (h : k ≠ k2) : lookupG (addAmt m k v) k2 = lookupG m k2 := by
  induction m with
  | nil => simp [addAmt, lookupG, h]
  | cons p rest ih =>
    obtain ⟨k0, v0⟩ := p
    by_cases hk : k0 = k
    · subst hk
      simp [addAmt, lookupG, h]
    · simp [addAmt, hk, lookupG, ih]

/-- The central grouping invariant: looking a key up in the accumulated
groups yields any initial amount plus the sum of the consumed amounts of the
rows carrying that grouping key. -/
theorem lookupG_buildGroups (rows : List FuelRow) (m : List (String × ℚ))
    (k : String) :
    lookupG (buildGroups rows m) k =
      match lookupG m k with
      | some w => some (w + groupKeySum rows k)
      | none =>
        if k ∈ rows.filterMap groupKey then some (groupKeySum rows k)
        else none := by
  induction rows generalizing m with
  | nil =>
    simp only [buildGroups, groupKeySum, List.filterMap_nil,
      List.not_mem_nil, if_false]
    cases h : lookupG m k <;> simp
  | cons r rs ih =>
    cases hg : groupKey r with
    | none =>
      simp only [buildGroups, hg, groupKeySum, List.filterMap_cons, hg]
      rw [ih m]
      simp
    | some k0 =>
      by_cases hk : k0 = k
      · subst hk
        simp only [buildGroups, hg, groupKeySum, List.filterMap_cons, hg]
        rw [ih (addAmt m k0 (flt0 r.amount_consumed)),
          lookupG_addAmt_self]
        cases hm : lookupG m k0 with
        | none =>
          simp [hg, add_assoc]
        | some w =>
          simp [hg, add_assoc]
      · simp only [buildGroups, hg, groupKeySum, List.filterMap_cons, hg]
        rw [ih (addAmt m k0 (flt0 r.amount_consumed)),
          lookupG_addAmt_other m k0 k _ hk]
        have hne : ¬(groupKey r = some k) := by simp [hg, hk]
        have hk2 : ¬(k = k0) := fun h => hk h.symm
        cases hm : lookupG m k with
        | none => simp [hne, hk, hk2]
        | some w => simp [hne, hk, hk2]

/-- Membership in the grouped key list is membership in the initial map or
among the row grouping keys. -/
theorem mem_keysOf_buildGroups (rows : List FuelRow)
    (m : List (String × ℚ)) (k : String) :
    k ∈ keysOf (buildGroups rows m) ↔
      k ∈ keysOf m ∨ k ∈ rows.filterMap groupKey := by
  induction rows generalizing m with
  | nil => simp [buildGroups]
  | cons r rs ih =>
    cases hg : groupKey r with
    | none =>
      simp only [buildGroups, hg, List.filterMap_cons, hg]
      exact ih m
    | some k0 =>
      simp only [buildGroups, hg, List.filterMap_cons, hg]
      rw [ih (addAmt m k0 (flt0 r.amount_consumed))]
      rw [mem_keysOf_addAmt]
      constructor
      · rintro ((hm | rfl) | hm)
        · exact Or.inl hm
        · exact Or.inr (List.mem_cons_self _ _)
        · exact Or.inr (List.mem_cons_of_mem _ hm)
      · rintro (hm | hm)
        · exact Or.inl (Or.inl hm)
        · rcases List.mem_cons.1 hm with rfl | hm2
          · exact Or.inl (Or.inr rfl)
          · exact Or.inr hm2

/-- Grouping preserves distinctness of the key list. -/
theorem keysOf_buildGroups_nodup (rows : List FuelRow)
    (m : List (String × ℚ)) (h : (keysOf m).Nodup) :
    (keysOf (buildGroups rows m)).Nodup := by
  induction rows generalizing m with
  | nil => exact h
  | cons r rs ih =>
    cases hg : groupKey r with
    | none =>
      simp only [buildGroups, hg]
      exact ih m h
    | some k0 =>
      simp only [buildGroups, hg]
      refine ih (addAmt m k0 (flt0 r.amount_consumed)) ?_
      by_cases hm : k0 ∈ keysOf m
      · rw [keysOf_addAmt_mem m k0 _ hm]
        exact h
      · rw [keysOf_addAmt_not_mem m k0 _ hm]
        simp [List.nodup_append, h, hm]

/-- With distinct keys, a pair in the association list is found by
lookup. -/
theorem lookupG_of_mem_nodup (m : List (String × ℚ)) (k : String) (v : ℚ)
    (hnd : (keysOf m).Nodup) (hm : (k, v) ∈ m) : lookupG m k = some v := by
  induction m with
  | nil => cases hm
  | cons p rest ih =>
    obtain ⟨k0, v0⟩ := p
    rcases List.mem_cons.1 hm with heq | hm2
    · injection heq with h1 h2
      subst h1
      subst h2
      simp [lookupG]
    · by_cases hk : k0 = k
      · subst hk
        have : k0 ∈ keysOf rest :=
          List.mem_map_of_mem Prod.fst hm2
        exact absurd this (List.nodup_cons.1 hnd).1
      · simp only [lookupG, if_neg hk]
        exact ih (List.nodup_cons.1 hnd).2 hm2

/-- C9: in grouped purchase-invoice creation, the grouping key of a detail
row is the primary cost_center when set and shared_use_cost_center
otherwise; rows with neither are excluded; exactly one invoice item is
produced per distinct grouping key, and its rate and amount both equal the
sum of amount_consumed over the rows of its group. -/
theorem c9_grouped_invoice_items (rows : List FuelRow) (docname : String) :
    ((create_purchase_invoice_items rows docname).map
        (·.cost_center)).Nodup ∧
    (∀ k : String,
      k ∈ (create_purchase_invoice_items rows docname).map
          (·.cost_center) ↔
        k ∈ rows.filterMap groupKey) ∧
    (∀ it ∈ create_purchase_invoice_items rows docname,
      it.item_code = "NS-00106" ∧ it.qty = 1 ∧
      it.custom_fuel_consumption = docname ∧
      it.rate = groupKeySum rows it.cost_center ∧ it.amount = it.rate) ∧
    (∀ r : FuelRow,
      (r.cost_center ≠ none → groupKey r = r.cost_center) ∧
      (r.cost_center = none → groupKey r = r.shared_use_cost_center)) := by
  have hkeys : (create_purchase_invoice_items rows docname).map
      (·.cost_center) = keysOf (buildGroups rows []) := by
    simp only [create_purchase_invoice_items, List.map_map]
    rfl
  have hnd : (keysOf (buildGroups rows [])).Nodup :=
    keysOf_buildGroups_nodup rows [] (by simp [keysOf_nil])
  refine ⟨?_, ?_, ?_, ?_⟩
  · rw [hkeys]
    exact hnd
  · intro k
    rw [hkeys, mem_keysOf_buildGroups]
    simp [keysOf_nil]
  · intro it hit
    have hit2 : it ∈ (buildGroups rows []).map (fun kv =>
        ({ item_code := "NS-00106", qty := 1, rate := kv.2, amount := kv.2,
           cost_center := kv.1, custom_fuel_consumption := docname } :
          InvoiceItem)) := hit
    obtain ⟨kv, hkv, rfl⟩ := List.mem_map.1 hit2
    refine ⟨rfl, rfl, rfl, ?_, rfl⟩
    have hl : lookupG (buildGroups rows []) kv.1 = some kv.2 :=
      lookupG_of_mem_nodup _ _ _ hnd hkv
    have hmain := lookupG_buildGroups rows [] kv.1
    rw [hl] at hmain
    by_cases hmem : kv.1 ∈ rows.filterMap groupKey
    · rw [if_pos hmem] at hmain
      injection hmain
    · rw [if_neg hmem] at hmain
      cases hmain
  · intro r
    constructor
    · intro h
      cases hc : r.cost_center with
      | none => exact absurd hc h
      | some c => simp [groupKey, hc]
    · intro h
      simp [groupKey, h]

/-- C9 witness: a single detail row with primary cost center A and amount 2
yields one item for A whose rate equals the group sum; a row with a primary
cost center groups under it. -/
theorem c9_grouped_invoice_items_witness :
    ((⟨"NS-00106", 1, 2, 2, "A", "FC-1"⟩ : InvoiceItem).item_code =
        "NS-00106" ∧
      (⟨"NS-00106", 1, 2, 2, "A", "FC-1"⟩ : InvoiceItem).qty = 1 ∧
      (⟨"NS-00106", 1, 2, 2, "A", "FC-1"⟩ :
        InvoiceItem).custom_fuel_consumption = "FC-1" ∧
      (⟨"NS-00106", 1, 2, 2, "A", "FC-1"⟩ : InvoiceItem).rate =
        groupKeySum [⟨some "A", none, some 2⟩]
          (⟨"NS-00106", 1, 2, 2, "A", "FC-1"⟩ : InvoiceItem).cost_center ∧
      (⟨"NS-00106", 1, 2, 2, "A", "FC-1"⟩ : InvoiceItem).amount =
        (⟨"NS-00106", 1, 2, 2, "A", "FC-1"⟩ : InvoiceItem).rate) ∧
    groupKey ⟨some "A", none, some 2⟩ = some "A" :=
  ⟨(c9_grouped_invoice_items [⟨some "A", none, some 2⟩] "FC-1").2.2.1
      ⟨"NS-00106", 1, 2, 2, "A", "FC-1"⟩ (List.mem_singleton_self _),
    ((c9_grouped_invoice_items [⟨some "A", none, some 2⟩] "FC-1").2.2.2
        ⟨some "A", none, some 2⟩).1 (by simp)⟩

/-- C10 witness: a 3-unit return row maps to a credit-note line with
quantity -3, which is nonpositive. -/
theorem c10_credit_note_items_witness :
    (if (3 : ℚ) > 0 then (-1 : ℚ) * 3 else 3) ≤ 0 :=
  (c10_credit_note_items ⟨some "C", [⟨"X", 3, none⟩], "SR-1"⟩
      [⟨"X", 3, none⟩] "SR-1").2.2
    ⟨"X", if (3 : ℚ) > 0 then (-1 : ℚ) * 3 else 3, none, "SR-1"⟩
    (List.mem_singleton_self _)

end CntTools
